import Mathlib

/-!
Verification development for the web-auth repository.

Part I embeds the verification-code subsystem (issuance, storage, expiry,
rate-limited redemption) described by the specification.  Its implementation
is not among the shipped source files, so the definitions below are modelled
from the specification text, as their doc comments state.

Part II embeds the two login route actions that are shipped as source
(the session-expiration exercise and the finished exercise), translated
directly from the TypeScript.
-/

namespace VerifCore

/-- Modelled from the spec: the enumerated `purpose` tag of a
VerificationRequest (section 3 lists email-verify, reset-password,
onboarding-2fa, login-2fa, change-email, delete-account). -/
inductive Purpose where
  | emailVerify
  | resetPassword
  | onboarding2fa
  | login2fa
  | changeEmail
  | deleteAccount
deriving DecidableEq

/-- Modelled from the spec: the `algorithm` tag on a record, selecting the
one-time-code derivation scheme (fixed-expiry random code vs. time-based). -/
inductive Algorithm where
  | randomCode
  | timeBased
deriving DecidableEq

/-- Modelled from the spec: the VerificationRequest entity of section 3,
with the fields the data model lists.  Timestamps are naturals. -/
structure VerificationRequest where
  id : Nat
  purpose : Purpose
  target : String
  secret : String
  algorithm : Algorithm
  createdAt : Nat
  expiresAt : Nat
  charSet : String
  codeLength : Nat
deriving DecidableEq

/-- Modelled from the spec: a RateLimitCounter entry — failed-attempt count
for a key together with the start of its fixed window (section 3). -/
structure Counter where
  count : Nat
  windowStart : Nat
deriving DecidableEq

/-- Modelled from the spec: rate-limiter policy parameters — N failed
attempts allowed per window W (section 4.3). -/
structure Config where
  threshold : Nat
  window : Nat
deriving DecidableEq

/-- Modelled from the spec: the shared mutable state — the durable record
store, the ephemeral rate-limit counters keyed by (purpose, target), and an
id source for fresh records. -/
structure EngineState where
  store : List VerificationRequest
  counters : List ((Purpose × String) × Counter)
  nextId : Nat
deriving DecidableEq

/-- Modelled from the spec: the three terminal rejection reasons of the
error taxonomy (section 7). -/
inductive RejectReason where
  | rateLimited
  | noActiveCode
  | codeMismatch
deriving DecidableEq

/-- Modelled from the spec: a redemption outcome — Success(boundTarget),
Rejected(reason), or the retryable StorageUnavailable error (section 7). -/
inductive RedeemOutcome where
  | success (target : String)
  | rejected (reason : RejectReason)
  | storageUnavailable
deriving DecidableEq

/-- Whether an outcome is a successful redemption. -/
def RedeemOutcome.isSuccess : RedeemOutcome → Bool
  | .success _ => true
  | _ => false

/-- Modelled from the spec: `find(purpose, target)` of the record store —
returns the active record if present and unexpired, treating an expired
record as absent with no cleanup step required (section 4.2). -/
def findActive : List VerificationRequest → Purpose → String → Nat →
    Option VerificationRequest
  | [], _, _, _ => none
  | r :: rs, p, t, now =>
      if r.purpose = p ∧ r.target = t ∧ now < r.expiresAt then some r
      else findActive rs p t now

/-- Modelled from the spec: removal of every record stored under a
(purpose, target) key — the replace half of the atomic replace-then-insert
of `create` (section 4.2), also used by explicit cancellation. -/
def removeKey (l : List VerificationRequest) (p : Purpose) (t : String) :
    List VerificationRequest :=
  l.filter fun r => !(decide (r.purpose = p ∧ r.target = t))

/-- Modelled from the spec: `delete(id)` of the record store — idempotent
removal by id (section 4.2). -/
def deleteReq (l : List VerificationRequest) (i : Nat) :
    List VerificationRequest :=
  l.filter fun r => !(decide (r.id = i))

/-- Modelled from the spec: counter lookup in the ephemeral counter list. -/
def lookupCtr : List ((Purpose × String) × Counter) → Purpose × String →
    Option Counter
  | [], _ => none
  | e :: es, k => if e.1 = k then some e.2 else lookupCtr es k

/-- Modelled from the spec: writing a counter value for a key (atomic
update in the ephemeral counter store). -/
def setCtr : List ((Purpose × String) × Counter) → Purpose × String →
    Counter → List ((Purpose × String) × Counter)
  | [], k, c => [(k, c)]
  | e :: es, k, c => if e.1 = k then (k, c) :: es else e :: setCtr es k c

/-- Modelled from the spec: dropping the counter for a key — the
reset-on-success of section 4.3. -/
def removeCtr : List ((Purpose × String) × Counter) → Purpose × String →
    List ((Purpose × String) × Counter)
  | [], _ => []
  | e :: es, k => if e.1 = k then removeCtr es k else e :: removeCtr es k

/-- Modelled from the spec: the failed-attempt count a key currently shows —
0 when no entry exists or the fixed window has rolled over (section 4.3). -/
def effCount (cfg : Config) (cs : List ((Purpose × String) × Counter))
    (k : Purpose × String) (now : Nat) : Nat :=
  match lookupCtr cs k with
  | none => 0
  | some c => if now < c.windowStart + cfg.window then c.count else 0

/-- Modelled from the spec: recording one failed attempt — starts a fresh
window when none is live, otherwise increments within the live window
(section 4.3). -/
def bumpCtr (cfg : Config) (cs : List ((Purpose × String) × Counter))
    (k : Purpose × String) (now : Nat) :
    List ((Purpose × String) × Counter) :=
  match lookupCtr cs k with
  | none => setCtr cs k ⟨1, now⟩
  | some c =>
      if now < c.windowStart + cfg.window then
        setCtr cs k ⟨c.count + 1, c.windowStart⟩
      else
        setCtr cs k ⟨1, now⟩

/-- Modelled from the spec: the Redemption Engine state machine of section
4.5.  Step 1 consults the rate limiter before anything else; step 2 checks
durable-store availability (unavailability fails closed as
StorageUnavailable, section 7) and fetches the active record, counting a
miss against the limiter; step 3 compares the supplied code, counting a
mismatch; step 4 deletes the record and resets the counter on a match. -/
def redeem (cfg : Config) (st : EngineState) (p : Purpose) (t : String)
    (suppliedCode : String) (now : Nat) (avail : Bool) :
    RedeemOutcome × EngineState :=
  if cfg.threshold ≤ effCount cfg st.counters (p, t) now then
    (.rejected .rateLimited, st)
  else if avail then
    match findActive st.store p t now with
    | none =>
        (.rejected .noActiveCode,
         { st with counters := bumpCtr cfg st.counters (p, t) now })
    | some r =>
        if r.secret = suppliedCode then
          (.success t,
           { st with store := deleteReq st.store r.id,
                     counters := removeCtr st.counters (p, t) })
        else
          (.rejected .codeMismatch,
           { st with counters := bumpCtr cfg st.counters (p, t) now })
  else
    (.storageUnavailable, st)

/-- Modelled from the spec: `issue(purpose, target, options)` — atomically
replaces any record for the pair and inserts a fresh one with
`expiresAt = now + ttl` (sections 4.2 and 6); the generated secret is the
input drawn from the collaborating secure randomness source. -/
def issue (st : EngineState) (p : Purpose) (t : String) (secret : String)
    (alg : Algorithm) (charSet : String) (codeLength ttl now : Nat) :
    String × EngineState :=
  (secret,
   { st with
       store :=
         { id := st.nextId, purpose := p, target := t, secret := secret,
           algorithm := alg, createdAt := now, expiresAt := now + ttl,
           charSet := charSet, codeLength := codeLength }
           :: removeKey st.store p t,
       nextId := st.nextId + 1 })

/-- Modelled from the spec: `cancel(purpose, target)` — explicit
invalidation of a pending code (section 6). -/
def cancel (st : EngineState) (p : Purpose) (t : String) : EngineState :=
  { st with store := removeKey st.store p t }

/-- Modelled from the spec: `sweepExpired` — storage hygiene that drops
already-expired rows, never load-bearing (section 4.2). -/
def sweepExpired (st : EngineState) (now : Nat) : EngineState :=
  { st with store := st.store.filter fun r => decide (now < r.expiresAt) }

/-- Modelled from the spec: the states reachable from the empty engine by
the externally visible operations of section 6 (issuance, redemption,
cancellation, expiry sweep), each an atomic step per section 5. -/
inductive Reachable (cfg : Config) : EngineState → Prop where
  | init : Reachable cfg ⟨[], [], 0⟩
  | issueStep {st} (p : Purpose) (t secret : String) (alg : Algorithm)
      (charSet : String) (codeLength ttl now : Nat) :
      Reachable cfg st →
      Reachable cfg (issue st p t secret alg charSet codeLength ttl now).2
  | redeemStep {st} (p : Purpose) (t code : String) (now : Nat)
      (avail : Bool) :
      Reachable cfg st → Reachable cfg (redeem cfg st p t code now avail).2
  | cancelStep {st} (p : Purpose) (t : String) :
      Reachable cfg st → Reachable cfg (cancel st p t)
  | sweepStep {st} (now : Nat) :
      Reachable cfg st → Reachable cfg (sweepExpired st now)

/-- No two records of the store occupy the same (purpose, target) key. -/
def DistinctKeys (l : List VerificationRequest) : Prop :=
  l.Pairwise fun a b => ¬(a.purpose = b.purpose ∧ a.target = b.target)

theorem findActive_some {l : List VerificationRequest} {p : Purpose}
    {t : String} {now : Nat} {r : VerificationRequest}
    (h : findActive l p t now = some r) :
    r ∈ l ∧ r.purpose = p ∧ r.target = t ∧ now < r.expiresAt := by
  induction l with
  | nil => simp [findActive] at h
  | cons a as ih =>
      rw [findActive] at h
      split at h
      · rename_i hc
        injection h with h
        subst h
        exact ⟨List.mem_cons_self _ _, hc.1, hc.2.1, hc.2.2⟩
      · obtain ⟨hm, hrest⟩ := ih h
        exact ⟨List.mem_cons_of_mem _ hm, hrest⟩

theorem findActive_eq_none {l : List VerificationRequest} {p : Purpose}
    {t : String} {now : Nat}
    (h : ∀ r ∈ l, ¬(r.purpose = p ∧ r.target = t ∧ now < r.expiresAt)) :
    findActive l p t now = none := by
  induction l with
  | nil => rfl
  | cons a as ih =>
      rw [findActive]
      split
      · rename_i hc
        exact absurd hc (h a (List.mem_cons_self _ _))
      · exact ih fun r hr => h r (List.mem_cons_of_mem _ hr)

theorem mem_removeKey {q : VerificationRequest}
    {l : List VerificationRequest} {p : Purpose} {t : String} :
    q ∈ removeKey l p t ↔ q ∈ l ∧ ¬(q.purpose = p ∧ q.target = t) := by
  simp only [removeKey, List.mem_filter, Bool.not_eq_eq_eq_not,
    Bool.not_true, decide_eq_false_iff_not]

theorem mem_deleteReq {q : VerificationRequest}
    {l : List VerificationRequest} {i : Nat} :
    q ∈ deleteReq l i ↔ q ∈ l ∧ q.id ≠ i := by
  simp [deleteReq, List.mem_filter]

theorem distinctKeys_filter {l : List VerificationRequest}
    (f : VerificationRequest → Bool) (h : DistinctKeys l) :
    DistinctKeys (l.filter f) :=
  List.Pairwise.sublist (List.filter_sublist l) h

theorem distinctKeys_eq_of_same_key {l : List VerificationRequest}
    (h : DistinctKeys l) {q r : VerificationRequest} (hq : q ∈ l)
    (hr : r ∈ l) (hp : q.purpose = r.purpose) (ht : q.target = r.target) :
    q = r := by
  by_contra hne
  have hsym : Symmetric fun a b : VerificationRequest =>
      ¬(a.purpose = b.purpose ∧ a.target = b.target) := by
    intro a b hab hba
    exact hab ⟨hba.1.symm, hba.2.symm⟩
  exact (h.forall hsym) hq hr hne ⟨hp, ht⟩

theorem distinctKeys_create {l : List VerificationRequest}
    (h : DistinctKeys l) (r : VerificationRequest) :
    DistinctKeys (r :: removeKey l r.purpose r.target) := by
  refine List.Pairwise.cons ?_ (distinctKeys_filter _ h)
  intro q hq hqk
  exact (mem_removeKey.mp hq).2 ⟨hqk.1.symm, hqk.2.symm⟩

theorem findActive_removeKey_other {l : List VerificationRequest}
    {p p' : Purpose} {t t' : String} {now : Nat}
    (h : ¬(p' = p ∧ t' = t)) :
    findActive (removeKey l p t) p' t' now = findActive l p' t' now := by
  induction l with
  | nil => rfl
  | cons a as ih =>
      by_cases hk : a.purpose = p ∧ a.target = t
      · have h1 : removeKey (a :: as) p t = removeKey as p t := by
          simp [removeKey, List.filter_cons, hk]
        rw [h1, ih, findActive]
        have h2 : ¬(a.purpose = p' ∧ a.target = t' ∧ now < a.expiresAt) := by
          rintro ⟨h3, h4, -⟩
          exact h ⟨h3 ▸ hk.1, h4 ▸ hk.2⟩
        simp [h2]
      · have h1 : removeKey (a :: as) p t = a :: removeKey as p t := by
          simp [removeKey, List.filter_cons, hk]
        rw [h1, findActive, findActive, ih]

theorem lookupCtr_setCtr_self
    (cs : List ((Purpose × String) × Counter)) (k : Purpose × String)
    (c : Counter) : lookupCtr (setCtr cs k c) k = some c := by
  induction cs with
  | nil => simp [setCtr, lookupCtr]
  | cons e es ih =>
      by_cases he : e.1 = k
      · simp [setCtr, he, lookupCtr]
      · simp [setCtr, he, lookupCtr, ih]

theorem lookupCtr_removeCtr_self
    (cs : List ((Purpose × String) × Counter)) (k : Purpose × String) :
    lookupCtr (removeCtr cs k) k = none := by
  induction cs with
  | nil => rfl
  | cons e es ih =>
      by_cases he : e.1 = k
      · simp [removeCtr, he, ih]
      · simp [removeCtr, he, lookupCtr, ih]

theorem effCount_bump (cfg : Config)
    (cs : List ((Purpose × String) × Counter)) (k : Purpose × String)
    (now : Nat) (hW : 0 < cfg.window) :
    effCount cfg (bumpCtr cfg cs k now) k now =
      effCount cfg cs k now + 1 := by
  unfold effCount bumpCtr
  cases hc : lookupCtr cs k with
  | none =>
      rw [lookupCtr_setCtr_self]
      simp [Nat.lt_add_of_pos_right hW]
  | some c =>
      by_cases hw : now < c.windowStart + cfg.window
      · simp only [hw, if_true]
        rw [lookupCtr_setCtr_self]
        simp [hw]
      · simp only [hw, if_false]
        rw [lookupCtr_setCtr_self]
        simp [hw, Nat.lt_add_of_pos_right hW]

theorem redeem_denied {cfg : Config} {st : EngineState} {p : Purpose}
    {t code : String} {now : Nat} {avail : Bool}
    (h : cfg.threshold ≤ effCount cfg st.counters (p, t) now) :
    redeem cfg st p t code now avail = (.rejected .rateLimited, st) := by
  simp [redeem, h]

theorem redeem_noRecord {cfg : Config} {st : EngineState} {p : Purpose}
    {t code : String} {now : Nat}
    (hallow : effCount cfg st.counters (p, t) now < cfg.threshold)
    (hfind : findActive st.store p t now = none) :
    redeem cfg st p t code now true =
      (.rejected .noActiveCode,
       { st with counters := bumpCtr cfg st.counters (p, t) now }) := by
  simp [redeem, Nat.not_le.mpr hallow, hfind]

theorem redeem_mismatch {cfg : Config} {st : EngineState} {p : Purpose}
    {t code : String} {now : Nat} {r : VerificationRequest}
    (hallow : effCount cfg st.counters (p, t) now < cfg.threshold)
    (hfind : findActive st.store p t now = some r)
    (hne : r.secret ≠ code) :
    redeem cfg st p t code now true =
      (.rejected .codeMismatch,
       { st with counters := bumpCtr cfg st.counters (p, t) now }) := by
  simp [redeem, Nat.not_le.mpr hallow, hfind, hne]

theorem redeem_match {cfg : Config} {st : EngineState} {p : Purpose}
    {t : String} {now : Nat} {r : VerificationRequest}
    (hallow : effCount cfg st.counters (p, t) now < cfg.threshold)
    (hfind : findActive st.store p t now = some r) :
    redeem cfg st p t r.secret now true =
      (.success t,
       { st with store := deleteReq st.store r.id,
                 counters := removeCtr st.counters (p, t) }) := by
  simp [redeem, Nat.not_le.mpr hallow, hfind]

theorem redeem_success_inv {cfg : Config} {st st' : EngineState}
    {p : Purpose} {t code tgt : String} {now : Nat} {avail : Bool}
    (h : redeem cfg st p t code now avail = (.success tgt, st')) :
    ∃ r, findActive st.store p t now = some r ∧ r.secret = code ∧
      tgt = t ∧
      st' = { st with store := deleteReq st.store r.id,
                      counters := removeCtr st.counters (p, t) } := by
  unfold redeem at h
  split at h
  · exact absurd h (by simp)
  · split at h
    · rename_i havail
      split at h
      · exact absurd h (by simp)
      · rename_i r hfind
        split at h
        · rename_i hsec
          rw [Prod.mk.injEq] at h
          obtain ⟨h1, h2⟩ := h
          injection h1 with h1
          exact ⟨r, hfind, hsec, h1.symm, h2.symm⟩
        · exact absurd h (by simp)
    · exact absurd h (by simp)

theorem reachable_distinctKeys {cfg : Config} {st : EngineState}
    (h : Reachable cfg st) : DistinctKeys st.store := by
  induction h with
  | init => exact List.Pairwise.nil
  | issueStep p t secret alg charSet codeLength ttl now _ ih =>
      exact distinctKeys_create ih _
  | redeemStep p t code now avail _ ih =>
      unfold redeem
      split
      · exact ih
      · split
        · split
          · exact ih
          · split
            · exact distinctKeys_filter _ ih
            · exact ih
        · exact ih
  | cancelStep p t _ ih => exact distinctKeys_filter _ ih
  | sweepStep now _ ih => exact distinctKeys_filter _ ih

/-- A sample stored verification request used by concrete witnesses. -/
def sampleReq : VerificationRequest :=
  { id := 0, purpose := .emailVerify, target := "a@b.com",
    secret := "123456", algorithm := .randomCode, createdAt := 0,
    expiresAt := 100, charSet := "0123456789", codeLength := 6 }

/-- A sample limiter configuration (threshold 3, window 10) used by
concrete witnesses. -/
def sampleCfg : Config := ⟨3, 10⟩

/-- A sample engine state holding one pending request and no counters. -/
def sampleState : EngineState := ⟨[sampleReq], [], 1⟩

/-- C1: a successful redeem(P, T, C) deletes the backing
VerificationRequest, and every subsequent redemption attempt re-submitting
C (or any code) for (P, T) is rejected with NoActiveCode — no code is ever
successfully redeemed twice.  Redemption attempts are the atomic steps of
section 5, so sequential re-submission covers the serialized concurrent
case. -/
theorem C1_redeem_single_use {cfg : Config} {st st' : EngineState}
    {p : Purpose} {t code tgt : String} {now : Nat}
    (hN : 0 < cfg.threshold)
    (hdk : DistinctKeys st.store)
    (h : redeem cfg st p t code now true = (.success tgt, st')) :
    (∃ r, findActive st.store p t now = some r ∧ r.secret = code ∧
        r ∉ st'.store) ∧
    (∀ now2, findActive st'.store p t now2 = none) ∧
    (∀ code2 now2, (redeem cfg st' p t code2 now2 true).1 =
        .rejected .noActiveCode) := by
  obtain ⟨r, hfind, hsec, htgt, hst⟩ := redeem_success_inv h
  have hr := findActive_some hfind
  have hnone : ∀ now2, findActive st'.store p t now2 = none := by
    intro now2
    subst hst
    apply findActive_eq_none
    intro q hq hk
    obtain ⟨hq1, hqid⟩ := mem_deleteReq.mp hq
    have hqr : q = r :=
      distinctKeys_eq_of_same_key hdk hq1 hr.1
        (hk.1.trans hr.2.1.symm) (hk.2.1.trans hr.2.2.1.symm)
    exact hqid (hqr ▸ rfl)
  refine ⟨⟨r, hfind, hsec, ?_⟩, hnone, ?_⟩
  · intro hmem
    rw [hst] at hmem
    exact (mem_deleteReq.mp hmem).2 rfl
  · intro code2 now2
    have heff : effCount cfg st'.counters (p, t) now2 = 0 := by
      unfold effCount
      rw [hst]
      simp [lookupCtr_removeCtr_self]
    rw [redeem_noRecord (by rw [heff]; exact hN) (hnone now2)]

/-- Witness for C1 at a concrete store, code and time. -/
theorem C1_redeem_single_use_witness :
    (∃ r, findActive sampleState.store .emailVerify "a@b.com" 5 = some r ∧
        r.secret = "123456" ∧
        r ∉ (redeem sampleCfg sampleState .emailVerify "a@b.com" "123456"
              5 true).2.store) ∧
    findActive (redeem sampleCfg sampleState .emailVerify "a@b.com"
        "123456" 5 true).2.store .emailVerify "a@b.com" 6 = none ∧
    (redeem sampleCfg (redeem sampleCfg sampleState .emailVerify "a@b.com"
        "123456" 5 true).2 .emailVerify "a@b.com" "123456" 6 true).1 =
      .rejected .noActiveCode := by
  have h := @C1_redeem_single_use sampleCfg sampleState
    (redeem sampleCfg sampleState .emailVerify "a@b.com" "123456"
      5 true).2
    .emailVerify "a@b.com" "123456" "a@b.com" 5 (by decide)
    (by simp [DistinctKeys, sampleState]) (by decide)
  exact ⟨h.1, h.2.1 6, h.2.2 "123456" 6⟩

theorem redeem_fst_congr {cfg : Config} {st1 st2 : EngineState}
    {p : Purpose} {t code : String} {now : Nat} {avail : Bool}
    (hc : st1.counters = st2.counters)
    (hf : findActive st1.store p t now = findActive st2.store p t now) :
    (redeem cfg st1 p t code now avail).1 =
      (redeem cfg st2 p t code now avail).1 := by
  by_cases hal : cfg.threshold ≤ effCount cfg st2.counters (p, t) now
  · simp [redeem, hc, hal]
  · cases avail with
    | false => simp [redeem, hc, hal]
    | true =>
        cases hff : findActive st2.store p t now with
        | none => simp [redeem, hc, hf, hal, hff]
        | some r =>
            by_cases hs : r.secret = code
            · simp [redeem, hc, hf, hal, hff, hs]
            · simp [redeem, hc, hf, hal, hff, hs]

theorem redeem_not_success_of_secret_ne {cfg : Config} {st : EngineState}
    {p : Purpose} {t code : String} {now : Nat} {avail : Bool}
    (h : ∀ r, findActive st.store p t now = some r → r.secret ≠ code) :
    RedeemOutcome.isSuccess (redeem cfg st p t code now avail).1 =
      false := by
  by_cases hal : cfg.threshold ≤ effCount cfg st.counters (p, t) now
  · simp [redeem, hal, RedeemOutcome.isSuccess]
  · cases avail with
    | false => simp [redeem, hal, RedeemOutcome.isSuccess]
    | true =>
        cases hff : findActive st.store p t now with
        | none => simp [redeem, hal, hff, RedeemOutcome.isSuccess]
        | some r =>
            simp [redeem, hal, hff, h r hff, RedeemOutcome.isSuccess]

/-- C2: every reachable store keeps at most one record per
(purpose, target) key; issuing a new code for (P, T) makes any prior code
for exactly (P, T) unredeemable, while redemption for a different purpose
on the same target behaves exactly as before the issuance. -/
theorem C2_unique_active_per_pair {cfg : Config} {st : EngineState}
    {p : Purpose} {t newSecret oldCode : String} {alg : Algorithm}
    {charSet : String} {codeLength ttl now : Nat}
    (hre : Reachable cfg st)
    (hold : oldCode ≠ newSecret) :
    DistinctKeys st.store ∧
    (∀ now2 avail, RedeemOutcome.isSuccess
        (redeem cfg
          (issue st p t newSecret alg charSet codeLength ttl now).2
          p t oldCode now2 avail).1 = false) ∧
    (∀ p', p' ≠ p → ∀ code2 now2 avail,
        (redeem cfg
          (issue st p t newSecret alg charSet codeLength ttl now).2
          p' t code2 now2 avail).1 =
        (redeem cfg st p' t code2 now2 avail).1) := by
  have hstore : (issue st p t newSecret alg charSet codeLength ttl
      now).2.store =
      ({ id := st.nextId, purpose := p, target := t, secret := newSecret,
         algorithm := alg, createdAt := now, expiresAt := now + ttl,
         charSet := charSet, codeLength := codeLength } :
        VerificationRequest) :: removeKey st.store p t := rfl
  refine ⟨reachable_distinctKeys hre, ?_, ?_⟩
  · intro now2 avail
    apply redeem_not_success_of_secret_ne
    intro r hr
    rw [hstore, findActive] at hr
    split at hr
    · injection hr with hr
      rw [← hr]
      exact Ne.symm hold
    · rw [findActive_eq_none (fun q hq hk =>
        (mem_removeKey.mp hq).2 ⟨hk.1, hk.2.1⟩)] at hr
      exact absurd hr (by simp)
  · intro p' hp' code2 now2 avail
    refine redeem_fst_congr ?_ ?_
    · rfl
    rw [hstore, findActive]
    have hhead : ¬(p = p' ∧ t = t ∧ now2 < now + ttl) := by
      rintro ⟨h1, -, -⟩
      exact hp' h1.symm
    rw [if_neg hhead]
    exact findActive_removeKey_other fun hk => hp' hk.1

/-- Witness for C2: the empty reachable state, a fresh issuance for
email-verify, and a pending reset-password code on the same target. -/
theorem C2_unique_active_per_pair_witness :
    DistinctKeys (⟨[], [], 0⟩ : EngineState).store ∧
    (RedeemOutcome.isSuccess
        (redeem sampleCfg
          (issue ⟨[], [], 0⟩ .emailVerify "a@b.com" "654321" .randomCode
            "0123456789" 6 10 0).2
          .emailVerify "a@b.com" "123456" 5 true).1 = false) ∧
    ((redeem sampleCfg
        (issue ⟨[], [], 0⟩ .emailVerify "a@b.com" "654321" .randomCode
          "0123456789" 6 10 0).2
        .resetPassword "a@b.com" "999999" 5 true).1 =
      (redeem sampleCfg (⟨[], [], 0⟩ : EngineState)
        .resetPassword "a@b.com" "999999" 5 true).1) := by
  have h := @C2_unique_active_per_pair sampleCfg ⟨[], [], 0⟩
    .emailVerify "a@b.com" "654321" "123456" .randomCode "0123456789"
    6 10 0 Reachable.init (by decide)
  exact ⟨h.1, h.2.1 5 true, h.2.2 .resetPassword (by decide) "999999"
    5 true⟩

/-- C3: a record past its expiresAt is treated as absent by find with no
cleanup having run, and redeeming even the stored (otherwise correct)
secret after expiry is rejected with NoActiveCode, the record still being
physically present. -/
theorem C3_lazy_expiry {cfg : Config} {store : List VerificationRequest}
    {cs : List ((Purpose × String) × Counter)} {nid : Nat} {p : Purpose}
    {t code : String} {now : Nat}
    (hexp : ∀ q ∈ store, q.purpose = p → q.target = t →
      q.expiresAt ≤ now)
    (hallow : effCount cfg cs (p, t) now < cfg.threshold) :
    findActive store p t now = none ∧
    (redeem cfg ⟨store, cs, nid⟩ p t code now true).1 =
      .rejected .noActiveCode := by
  have hnone : findActive store p t now = none :=
    findActive_eq_none fun r hr hk =>
      Nat.not_lt.mpr (hexp r hr hk.1 hk.2.1) hk.2.2
  refine ⟨hnone, ?_⟩
  rw [redeem_noRecord hallow hnone]

/-- Witness for C3: the sample record has expired at time 150 and its own
secret no longer redeems. -/
theorem C3_lazy_expiry_witness :
    findActive [sampleReq] .emailVerify "a@b.com" 150 = none ∧
    (redeem sampleCfg ⟨[sampleReq], [], 1⟩ .emailVerify "a@b.com"
      "123456" 150 true).1 = .rejected .noActiveCode :=
  C3_lazy_expiry (by decide) (by decide)

/-- A sequence of redemption attempts with a fixed supplied code, one per
listed attempt time, each an atomic engine step. -/
def runWrong (cfg : Config) (p : Purpose) (t code : String) :
    EngineState → List Nat → EngineState
  | st, [] => st
  | st, n :: ns =>
      runWrong cfg p t code (redeem cfg st p t code n true).2 ns

theorem runWrong_counts {cfg : Config} {p : Purpose} {t wrong : String}
    {r : VerificationRequest} {S : List VerificationRequest}
    (hwrong : r.secret ≠ wrong) :
    ∀ (ns : List Nat) (cs : List ((Purpose × String) × Counter))
      (nid c w0 : Nat),
      (∀ n ∈ ns, n < w0 + cfg.window) →
      (∀ n ∈ ns, findActive S p t n = some r) →
      lookupCtr cs (p, t) = some ⟨c, w0⟩ →
      c + ns.length ≤ cfg.threshold →
      ∃ cs', runWrong cfg p t wrong ⟨S, cs, nid⟩ ns = ⟨S, cs', nid⟩ ∧
        lookupCtr cs' (p, t) = some ⟨c + ns.length, w0⟩ := by
  intro ns
  induction ns with
  | nil =>
      intro cs nid c w0 _ _ hctr _
      exact ⟨cs, rfl, by simpa using hctr⟩
  | cons n ns ih =>
      intro cs nid c w0 hwin hfind hctr hle
      have heff : effCount cfg cs (p, t) n = c := by
        unfold effCount
        rw [hctr]
        simp [hwin n (List.mem_cons_self _ _)]
      have hallow : effCount cfg cs (p, t) n < cfg.threshold := by
        rw [heff]
        have := hle
        simp only [List.length_cons] at this
        omega
      have hstep := @redeem_mismatch cfg ⟨S, cs, nid⟩ p t wrong n r
        hallow (hfind n (List.mem_cons_self _ _)) hwrong
      have hbump : bumpCtr cfg cs (p, t) n =
          setCtr cs (p, t) ⟨c + 1, w0⟩ := by
        unfold bumpCtr
        rw [hctr]
        simp [hwin n (List.mem_cons_self _ _)]
      obtain ⟨cs', hrun, hlook⟩ := ih (setCtr cs (p, t) ⟨c + 1, w0⟩) nid
        (c + 1) w0
        (fun m hm => hwin m (List.mem_cons_of_mem _ hm))
        (fun m hm => hfind m (List.mem_cons_of_mem _ hm))
        (lookupCtr_setCtr_self cs (p, t) ⟨c + 1, w0⟩)
        (by simp only [List.length_cons] at hle; omega)
      refine ⟨cs', ?_, ?_⟩
      · rw [runWrong, hstep]
        simpa [hbump] using hrun
      · rw [hlook]
        have : c + 1 + ns.length = c + (n :: ns).length := by
          simp only [List.length_cons]; omega
        rw [this]

/-- C4: with limiter threshold N and window W, after N consecutive failed
redemption attempts within the window the next attempt is rejected
RateLimited whatever code it supplies; once the window has rolled over the
correct code succeeds again, and that success resets the failure counter
for the key to 0. -/
theorem C4_rate_limit_window {cfg : Config}
    {S : List VerificationRequest}
    {cs : List ((Purpose × String) × Counter)} {nid : Nat} {p : Purpose}
    {t wrong : String} {r : VerificationRequest} {t1 : Nat}
    {rest : List Nat} {tN tR : Nat}
    (hctr : lookupCtr cs (p, t) = none)
    (hN : rest.length + 1 = cfg.threshold)
    (hwin : ∀ n ∈ rest, n < t1 + cfg.window)
    (hfind1 : findActive S p t t1 = some r)
    (hfind : ∀ n ∈ rest, findActive S p t n = some r)
    (hwrong : r.secret ≠ wrong)
    (htN : tN < t1 + cfg.window)
    (htR : t1 + cfg.window ≤ tR)
    (hfindR : findActive S p t tR = some r) :
    (∀ anyCode,
      (redeem cfg (runWrong cfg p t wrong ⟨S, cs, nid⟩ (t1 :: rest))
        p t anyCode tN true).1 = .rejected .rateLimited) ∧
    (redeem cfg (runWrong cfg p t wrong ⟨S, cs, nid⟩ (t1 :: rest))
        p t r.secret tR true).1 = .success t ∧
    (∀ m, effCount cfg
        (redeem cfg (runWrong cfg p t wrong ⟨S, cs, nid⟩ (t1 :: rest))
          p t r.secret tR true).2.counters (p, t) m = 0) := by
  have hth : 0 < cfg.threshold := by omega
  have heff1 : effCount cfg cs (p, t) t1 = 0 := by
    unfold effCount
    rw [hctr]
  have hstep := @redeem_mismatch cfg ⟨S, cs, nid⟩ p t wrong t1 r
    (by rw [heff1]; exact hth) hfind1 hwrong
  have hbump : bumpCtr cfg cs (p, t) t1 = setCtr cs (p, t) ⟨1, t1⟩ := by
    unfold bumpCtr
    rw [hctr]
  obtain ⟨cs', hrun, hlook⟩ := runWrong_counts hwrong rest
    (setCtr cs (p, t) ⟨1, t1⟩) nid 1 t1 hwin hfind
    (lookupCtr_setCtr_self cs (p, t) ⟨1, t1⟩) (by omega)
  have hfull : runWrong cfg p t wrong ⟨S, cs, nid⟩ (t1 :: rest) =
      ⟨S, cs', nid⟩ := by
    rw [runWrong, hstep]
    simpa [hbump] using hrun
  have hlookN : lookupCtr cs' (p, t) = some ⟨cfg.threshold, t1⟩ := by
    rw [hlook]
    have : 1 + rest.length = cfg.threshold := by omega
    rw [this]
  have heffN : effCount cfg cs' (p, t) tN = cfg.threshold := by
    unfold effCount
    rw [hlookN]
    simp [htN]
  have heffR : effCount cfg cs' (p, t) tR = 0 := by
    unfold effCount
    rw [hlookN]
    simp [Nat.not_lt.mpr htR]
  refine ⟨?_, ?_, ?_⟩
  · intro anyCode
    rw [hfull, redeem_denied (by rw [heffN] : cfg.threshold ≤
      effCount cfg (⟨S, cs', nid⟩ : EngineState).counters (p, t) tN)]
  · rw [hfull, redeem_match (by rw [heffR]; exact hth) hfindR]
  · intro m
    rw [hfull, redeem_match (by rw [heffR]; exact hth) hfindR]
    unfold effCount
    rw [lookupCtr_removeCtr_self]

/-- Witness for C4: threshold 3, window 10; wrong guesses at times 0, 1
and 2 make the correct code rate-limited at time 3, while at time 10 the
window has rolled over, the correct code succeeds and the counter is
reset. -/
theorem C4_rate_limit_window_witness :
    (redeem sampleCfg (runWrong sampleCfg .emailVerify "a@b.com" "000000"
        ⟨[sampleReq], [], 1⟩ [0, 1, 2]) .emailVerify "a@b.com" "123456"
        3 true).1 = .rejected .rateLimited ∧
    (redeem sampleCfg (runWrong sampleCfg .emailVerify "a@b.com" "000000"
        ⟨[sampleReq], [], 1⟩ [0, 1, 2]) .emailVerify "a@b.com" "123456"
        10 true).1 = .success "a@b.com" ∧
    effCount sampleCfg
      (redeem sampleCfg (runWrong sampleCfg .emailVerify "a@b.com"
        "000000" ⟨[sampleReq], [], 1⟩ [0, 1, 2]) .emailVerify "a@b.com"
        "123456" 10 true).2.counters (.emailVerify, "a@b.com") 10 = 0 := by
  have h := @C4_rate_limit_window sampleCfg [sampleReq] [] 1
    .emailVerify "a@b.com" "000000" sampleReq 0 [1, 2] 3 10 (by decide)
    (by decide) (by decide) (by decide) (by decide) (by decide)
    (by decide) (by decide) (by decide)
  exact ⟨h.1 "123456", h.2.1, h.2.2 10⟩

/-- C5: a redemption attempt consults the limiter first — when the key is
denied the attempt returns Rejected(RateLimited) with the state untouched,
and the result is the same for every store contents, so a rate-limited key
reveals nothing about whether a record exists. -/
theorem C5_limiter_before_secret {cfg : Config} {st : EngineState}
    {p : Purpose} {t code : String} {now : Nat} {avail : Bool}
    (h : cfg.threshold ≤ effCount cfg st.counters (p, t) now) :
    redeem cfg st p t code now avail = (.rejected .rateLimited, st) ∧
    (∀ (store2 : List VerificationRequest) (nid2 : Nat),
      (redeem cfg ⟨store2, st.counters, nid2⟩ p t code now avail).1 =
        .rejected .rateLimited) := by
  refine ⟨redeem_denied h, fun store2 nid2 => ?_⟩
  rw [@redeem_denied cfg ⟨store2, st.counters, nid2⟩ p t code now
    avail h]

/-- Witness for C5: a saturated counter rejects the correct code both with
the record present and with an empty store. -/
theorem C5_limiter_before_secret_witness :
    redeem sampleCfg
      ⟨[sampleReq], [((.emailVerify, "a@b.com"), ⟨3, 0⟩)], 1⟩
      .emailVerify "a@b.com" "123456" 5 true =
      (.rejected .rateLimited,
       ⟨[sampleReq], [((.emailVerify, "a@b.com"), ⟨3, 0⟩)], 1⟩) ∧
    (redeem sampleCfg ⟨[], [((.emailVerify, "a@b.com"), ⟨3, 0⟩)], 0⟩
      .emailVerify "a@b.com" "123456" 5 true).1 =
      .rejected .rateLimited := by
  have h := @C5_limiter_before_secret sampleCfg
    ⟨[sampleReq], [((.emailVerify, "a@b.com"), ⟨3, 0⟩)], 1⟩
    .emailVerify "a@b.com" "123456" 5 true (by decide)
  exact ⟨h.1, h.2 [] 0⟩

/-- C6: an attempt that is not rate-limited and finds no active record is
rejected NoActiveCode and still increments the failure counter for the
key, exactly as a wrong guess against a live record would. -/
theorem C6_absent_counts_against_limit {cfg : Config} {st : EngineState}
    {p : Purpose} {t code : String} {now : Nat}
    (hallow : effCount cfg st.counters (p, t) now < cfg.threshold)
    (hmiss : findActive st.store p t now = none)
    (hW : 0 < cfg.window) :
    redeem cfg st p t code now true =
      (.rejected .noActiveCode,
       { st with counters := bumpCtr cfg st.counters (p, t) now }) ∧
    effCount cfg (redeem cfg st p t code now true).2.counters (p, t)
        now = effCount cfg st.counters (p, t) now + 1 ∧
    (∀ (st2 : EngineState) (r : VerificationRequest),
      st2.counters = st.counters →
      findActive st2.store p t now = some r → r.secret ≠ code →
      (redeem cfg st2 p t code now true).2.counters =
        (redeem cfg st p t code now true).2.counters) := by
  have h1 := @redeem_noRecord cfg st p t code now hallow hmiss
  refine ⟨h1, ?_, ?_⟩
  · rw [h1]
    exact effCount_bump cfg st.counters (p, t) now hW
  · intro st2 r hc2 hf2 hne
    rw [redeem_mismatch (by rw [hc2]; exact hallow) hf2 hne, h1]
    simp [hc2]

/-- Witness for C6: a guess against an empty store is rejected
NoActiveCode, raises the count from 0 to 1, and updates the counters the
same way as a wrong guess against the sample record. -/
theorem C6_absent_counts_against_limit_witness :
    redeem sampleCfg ⟨[], [], 0⟩ .emailVerify "a@b.com" "000000" 0 true =
      (.rejected .noActiveCode,
       { (⟨[], [], 0⟩ : EngineState) with
           counters := bumpCtr sampleCfg [] (.emailVerify, "a@b.com") 0 }) ∧
    effCount sampleCfg
      (redeem sampleCfg ⟨[], [], 0⟩ .emailVerify "a@b.com" "000000" 0
        true).2.counters (.emailVerify, "a@b.com") 0 =
      effCount sampleCfg [] (.emailVerify, "a@b.com") 0 + 1 ∧
    (redeem sampleCfg ⟨[sampleReq], [], 0⟩ .emailVerify "a@b.com"
      "000000" 0 true).2.counters =
      (redeem sampleCfg ⟨[], [], 0⟩ .emailVerify "a@b.com" "000000" 0
        true).2.counters := by
  have h := @C6_absent_counts_against_limit sampleCfg ⟨[], [], 0⟩
    .emailVerify "a@b.com" "000000" 0 (by decide) (by decide)
    (by decide)
  exact ⟨h.1, h.2.1, h.2.2 ⟨[sampleReq], [], 0⟩ sampleReq rfl (by decide)
    (by decide)⟩

/-- C7: with the backing store unavailable a redemption attempt never
returns Success — it surfaces StorageUnavailable (or RateLimited when the
limiter already denies the key, which never consults the store), and
whenever the limiter allows the key the whole result is exactly
StorageUnavailable with the state untouched. -/
theorem C7_storage_fail_closed (cfg : Config) (st : EngineState)
    (p : Purpose) (t code : String) (now : Nat) :
    RedeemOutcome.isSuccess (redeem cfg st p t code now false).1 =
      false ∧
    ((redeem cfg st p t code now false).1 = .storageUnavailable ∨
     (redeem cfg st p t code now false).1 = .rejected .rateLimited) ∧
    (effCount cfg st.counters (p, t) now < cfg.threshold →
      redeem cfg st p t code now false = (.storageUnavailable, st)) := by
  by_cases hal : cfg.threshold ≤ effCount cfg st.counters (p, t) now
  · exact ⟨by simp [redeem, hal, RedeemOutcome.isSuccess],
      Or.inr (by simp [redeem, hal]),
      fun hlt => absurd hal (Nat.not_le.mpr hlt)⟩
  · exact ⟨by simp [redeem, hal, RedeemOutcome.isSuccess],
      Or.inl (by simp [redeem, hal]),
      fun _ => by simp [redeem, hal]⟩

/-- Witness for C7: at the sample state with the store down, the correct
code yields exactly StorageUnavailable. -/
theorem C7_storage_fail_closed_witness :
    RedeemOutcome.isSuccess
      (redeem sampleCfg sampleState .emailVerify "a@b.com" "123456" 5
        false).1 = false ∧
    redeem sampleCfg sampleState .emailVerify "a@b.com" "123456" 5
      false = (.storageUnavailable, sampleState) := by
  have h := C7_storage_fail_closed sampleCfg sampleState .emailVerify
    "a@b.com" "123456" 5
  exact ⟨h.1, h.2.2 (by decide)⟩

end VerifCore

/-- Removal of a named field from a form payload — the embedding of the
TypeScript statement deleting a key from the echoed submission payload. -/
def removeField (payload : List (String × String)) (k : String) :
    List (String × String) :=
  payload.filter fun kv => !(decide (kv.1 = k))

theorem removeField_no_key (payload : List (String × String))
    (k : String) :
    (removeField payload k).any (fun kv => decide (kv.1 = k)) = false := by
  rw [List.any_eq_false]
  intro kv hkv
  have h := (List.mem_filter.mp hkv).2
  simpa using h

namespace LoginV1

/-- The login form fields of the session-expiration exercise
(src/exercises/04.logout/02.problem.expiration/app/routes/_auth+/login.tsx,
LoginFormSchema): username, password, remember checkbox. -/
structure LoginData where
  username : String
  password : String
  remember : Bool
deriving DecidableEq

/-- The value produced by the schema transform on success: the spread of
the form data plus the authenticated user id.  The password component is
optional so that the delete statement of the action can remove it. -/
structure LoginValue where
  username : String
  password : Option String
  remember : Bool
  userId : String
deriving DecidableEq

/-- The conform submission object the action branches on: intent, echoed
payload, optional parsed value, and form-level error messages added by
ctx.addIssue. -/
structure Submission where
  intent : String
  payload : List (String × String)
  value : Option LoginValue
  formErrors : List String
deriving DecidableEq

/-- The credential check inside the schema transform (login.tsx lines
31-58): look the user up by username with the password hash; a missing
user, a user without a password row, or a failed bcrypt comparison each
add the issue Invalid username or password and yield no value.  The user
table and bcrypt.compare are external collaborators, passed as
functions. -/
def checkCredentials (db : String → Option (String × Option String))
    (compare : String → String → Bool) (d : LoginData) :
    Option LoginValue × List String :=
  match db d.username with
  | none => (none, ["Invalid username or password"])
  | some (_, none) => (none, ["Invalid username or password"])
  | some (uid, some hash) =>
      if compare d.password hash then
        (some ⟨d.username, some d.password, d.remember, uid⟩, [])
      else
        (none, ["Invalid username or password"])

/-- The parse step of the action: field-level schema validation is the
collaborating zod schemas (not in the shipped sources), abstracted as an
optional LoginData; when the fields parse, the transform above runs. -/
def parseSubmission (intent : String) (payload : List (String × String))
    (fields : Option LoginData)
    (db : String → Option (String × Option String))
    (compare : String → String → Bool) : Submission :=
  match fields with
  | none => ⟨intent, payload, none, []⟩
  | some d =>
      ⟨intent, payload, (checkCredentials db compare d).1,
       (checkCredentials db compare d).2⟩

/-- The observable results the action returns: a json body with a status
string, an HTTP status and the echoed submission, or a redirect that
commits the cookie session holding the user id. -/
inductive Response where
  | json (status : String) (httpStatus : Nat) (submission : Submission)
  | redirect (location : String) (cookieUserId : String)
deriving DecidableEq

/-- The action of the session-expiration login route (login.tsx lines
28-83): parse, delete the password from the echoed payload, return idle
json (with the password also deleted from the value) on a non-submit
intent, error json with HTTP 400 when no value was produced, otherwise
set the user id on the cookie session and redirect home. -/
def action (intent : String) (payload : List (String × String))
    (fields : Option LoginData)
    (db : String → Option (String × Option String))
    (compare : String → String → Bool) : Response :=
  let s0 := parseSubmission intent payload fields db compare
  let s1 := { s0 with payload := removeField s0.payload "password" }
  if s1.intent ≠ "submit" then
    Response.json "idle" 200
      { s1 with value := s1.value.map fun v => { v with password := none } }
  else
    match s1.value with
    | none => Response.json "error" 400 s1
    | some v => Response.redirect "/" v.userId

/-- Whether a response still carries the submitted password: a password
key in the echoed payload or a password inside the echoed value. -/
def hasPasswordField : Response → Bool
  | .json _ _ s =>
      (s.payload.any fun kv => decide (kv.1 = "password")) ||
        (match s.value with
         | some v => v.password.isSome
         | none => false)
  | .redirect _ _ => false

/-- The rejection shape a caller observes: json status string, HTTP
status, form errors, and whether the value is absent; a redirect exposes
no rejection. -/
def rejectionView : Response → Option (String × Nat × List String × Bool)
  | .json status hs s => some (status, hs, s.formErrors, s.value.isNone)
  | .redirect _ _ => none

end LoginV1

namespace LoginV2

/-- The login form fields of the finished exercise
(src/exercises/10.finished/01.problem/app/routes/_auth+/login.tsx,
LoginFormSchema): username, password, optional redirectTo, remember. -/
structure LoginData where
  username : String
  password : String
  redirectTo : Option String
  remember : Bool
deriving DecidableEq

/-- The session row selected after authentication: id, userId and
expirationDate (login.tsx lines 63-66). -/
structure Session where
  id : String
  userId : String
  expirationDate : Nat
deriving DecidableEq

/-- The value produced by the schema transform: the spread of the form
data plus the session (null on non-submit intents).  The password is
optional so the delete statement can remove it. -/
structure LoginValue where
  username : String
  password : Option String
  redirectTo : Option String
  remember : Bool
  session : Option Session
deriving DecidableEq

/-- The conform submission object of the finished route. -/
structure Submission where
  intent : String
  payload : List (String × String)
  value : Option LoginValue
  formErrors : List String
deriving DecidableEq

/-- The parse step of the finished action (login.tsx lines 49-82): on a
non-submit intent the transform returns the data with a null session;
otherwise the authenticator either yields a session id whose row is
loaded, or throws an error whose message becomes a form issue and no
value.  Field validation, the authenticator and the session table are
collaborators, abstracted as the optional LoginData and the optional
Session with its error message. -/
def parseSubmission (intent : String) (payload : List (String × String))
    (fields : Option LoginData) (auth : Option Session)
    (authErrMsg : String) : Submission :=
  match fields with
  | none => ⟨intent, payload, none, []⟩
  | some d =>
      if intent = "submit" then
        match auth with
        | none => ⟨intent, payload, none, [authErrMsg]⟩
        | some s =>
            ⟨intent, payload,
             some ⟨d.username, some d.password, d.redirectTo, d.remember,
               some s⟩, []⟩
      else
        ⟨intent, payload,
         some ⟨d.username, some d.password, d.redirectTo, d.remember,
           none⟩, []⟩

/-- The observable results of the finished action: json as in the other
variant, or a redirect committing the cookie session — the session id it
stores and the expires option passed to commitSession. -/
inductive Response where
  | json (status : String) (httpStatus : Nat) (submission : Submission)
  | redirect (location : String) (cookieSessionId : String)
      (cookieExpires : Option Nat)
deriving DecidableEq

/-- The action of the finished login route (login.tsx lines 46-107):
parse, delete the password from the echoed payload, idle json on
non-submit intents (password also deleted from the value), error json
with HTTP 400 when there is no value or no session, otherwise redirect to
the safe redirect target committing the cookie with
expires = session.expirationDate when remember was checked and no
expiration otherwise.  safeRedirect comes from the collaborating
remix-utils library, abstracted as a function. -/
def action (intent : String) (payload : List (String × String))
    (fields : Option LoginData) (auth : Option Session)
    (authErrMsg : String) (safeRedir : Option String → String) :
    Response :=
  let s0 := parseSubmission intent payload fields auth authErrMsg
  let s1 := { s0 with payload := removeField s0.payload "password" }
  if s1.intent ≠ "submit" then
    Response.json "idle" 200
      { s1 with value := s1.value.map fun v => { v with password := none } }
  else
    match s1.value with
    | none => Response.json "error" 400 s1
    | some v =>
        match v.session with
        | none => Response.json "error" 400 s1
        | some s =>
            Response.redirect (safeRedir v.redirectTo) s.id
              (if v.remember then some s.expirationDate else none)

/-- Whether a response still carries the submitted password. -/
def hasPasswordField : Response → Bool
  | .json _ _ s =>
      (s.payload.any fun kv => decide (kv.1 = "password")) ||
        (match s.value with
         | some v => v.password.isSome
         | none => false)
  | .redirect _ _ _ => false

end LoginV2

/-- C8: for every login form submission, the response of the login action
never carries the submitted password — the password field is deleted from
the echoed payload, and from the echoed value on non-submit intents, in
both login route variants. -/
theorem C8_password_never_echoed (intent : String)
    (payload : List (String × String))
    (fields1 : Option LoginV1.LoginData)
    (db : String → Option (String × Option String))
    (compare : String → String → Bool)
    (fields2 : Option LoginV2.LoginData)
    (auth : Option LoginV2.Session) (authErrMsg : String)
    (safeRedir : Option String → String) :
    LoginV1.hasPasswordField
      (LoginV1.action intent payload fields1 db compare) = false ∧
    LoginV2.hasPasswordField
      (LoginV2.action intent payload fields2 auth authErrMsg safeRedir) =
      false := by
  constructor
  · cases fields1 with
    | none =>
        by_cases hi : intent = "submit" <;>
          simp [LoginV1.action, LoginV1.parseSubmission,
            LoginV1.hasPasswordField, hi, removeField_no_key]
    | some d =>
        by_cases hi : intent = "submit" <;>
          cases hv : (LoginV1.checkCredentials db compare d).1 <;>
            simp [LoginV1.action, LoginV1.parseSubmission,
              LoginV1.hasPasswordField, hi, hv, removeField_no_key]
  · cases fields2 with
    | none =>
        by_cases hi : intent = "submit" <;>
          simp [LoginV2.action, LoginV2.parseSubmission,
            LoginV2.hasPasswordField, hi, removeField_no_key]
    | some d =>
        by_cases hi : intent = "submit"
        · cases auth with
          | none =>
              simp [LoginV2.action, LoginV2.parseSubmission,
                LoginV2.hasPasswordField, hi, removeField_no_key]
          | some s =>
              simp [LoginV2.action, LoginV2.parseSubmission,
                LoginV2.hasPasswordField, hi, removeField_no_key]
        · simp [LoginV2.action, LoginV2.parseSubmission,
            LoginV2.hasPasswordField, hi, removeField_no_key]

/-- C9: in the session-expiration login action, an unknown username and a
known username with a wrong password produce the same observable
rejection — HTTP 400, error status, the single form error Invalid
username or password, and no value — revealing nothing about whether the
username exists. -/
theorem C9_rejections_indistinguishable
    (payload1 payload2 : List (String × String))
    (d1 d2 : LoginV1.LoginData)
    (db : String → Option (String × Option String))
    (compare : String → String → Bool) (uid hash : String)
    (h1 : db d1.username = none)
    (h2 : db d2.username = some (uid, some hash))
    (h3 : compare d2.password hash = false) :
    LoginV1.rejectionView
        (LoginV1.action "submit" payload1 (some d1) db compare) =
      some ("error", 400, ["Invalid username or password"], true) ∧
    LoginV1.rejectionView
        (LoginV1.action "submit" payload2 (some d2) db compare) =
      some ("error", 400, ["Invalid username or password"], true) := by
  constructor
  · simp [LoginV1.action, LoginV1.parseSubmission,
      LoginV1.checkCredentials, LoginV1.rejectionView, h1]
  · simp [LoginV1.action, LoginV1.parseSubmission,
      LoginV1.checkCredentials, LoginV1.rejectionView, h2, h3]

/-- Witness for C9: a concrete user table holding only kody, a bcrypt
stand-in that rejects the guessed password, an unknown username, and a
known username with the wrong password. -/
theorem C9_rejections_indistinguishable_witness :
    LoginV1.rejectionView
        (LoginV1.action "submit"
          [("username", "nobody"), ("password", "guess")]
          (some ⟨"nobody", "guess", false⟩)
          (fun u => if u = "kody" then some ("uid1", some "h1") else none)
          (fun _ _ => false)) =
      some ("error", 400, ["Invalid username or password"], true) ∧
    LoginV1.rejectionView
        (LoginV1.action "submit"
          [("username", "kody"), ("password", "wrong")]
          (some ⟨"kody", "wrong", false⟩)
          (fun u => if u = "kody" then some ("uid1", some "h1") else none)
          (fun _ _ => false)) =
      some ("error", 400, ["Invalid username or password"], true) :=
  C9_rejections_indistinguishable
    [("username", "nobody"), ("password", "guess")]
    [("username", "kody"), ("password", "wrong")]
    ⟨"nobody", "guess", false⟩ ⟨"kody", "wrong", false⟩
    (fun u => if u = "kody" then some ("uid1", some "h1") else none)
    (fun _ _ => false) "uid1" "h1" (by decide) (by decide) rfl

/-- C10: in the finished login route every successful authentication
redirects with the cookie committed with
expires = session.expirationDate exactly when remember was checked and
with no expiration otherwise; conversely, every redirect the action
returns arises from a successful submit and carries exactly that
expiration. -/
theorem C10_remember_controls_cookie_expiry
    (payload : List (String × String)) (d : LoginV2.LoginData)
    (s : LoginV2.Session) (authErrMsg : String)
    (safeRedir : Option String → String) :
    LoginV2.action "submit" payload (some d) (some s) authErrMsg
        safeRedir =
      .redirect (safeRedir d.redirectTo) s.id
        (if d.remember then some s.expirationDate else none) ∧
    (∀ (intent : String) (fields : Option LoginV2.LoginData)
        (auth : Option LoginV2.Session) (loc sid : String)
        (exp : Option Nat),
      LoginV2.action intent payload fields auth authErrMsg safeRedir =
        .redirect loc sid exp →
      ∃ d2 s2, fields = some d2 ∧ auth = some s2 ∧ intent = "submit" ∧
        loc = safeRedir d2.redirectTo ∧ sid = s2.id ∧
        exp = if d2.remember then some s2.expirationDate else none) := by
  constructor
  · simp [LoginV2.action, LoginV2.parseSubmission]
  · intro intent fields auth loc sid exp h
    cases fields with
    | none =>
        by_cases hi : intent = "submit" <;>
          simp [LoginV2.action, LoginV2.parseSubmission, hi] at h
    | some d2 =>
        by_cases hi : intent = "submit"
        · cases auth with
          | none =>
              simp [LoginV2.action, LoginV2.parseSubmission, hi] at h
          | some s2 =>
              simp [LoginV2.action, LoginV2.parseSubmission, hi] at h
              exact ⟨d2, s2, rfl, rfl, hi, h.1.symm, h.2.1.symm,
                h.2.2.symm⟩
        · simp [LoginV2.action, LoginV2.parseSubmission, hi] at h

/-- Witness for C10: a concrete successful login with remember checked
redirects with the session expiration on the cookie, and the inversion
recovers the session from that redirect. -/
theorem C10_remember_controls_cookie_expiry_witness :
    LoginV2.action "submit" [("username", "kody")]
        (some ⟨"kody", "pw", some "/dash", true⟩)
        (some ⟨"sess1", "uid1", 77⟩) "bad" (fun o => o.getD "/") =
      .redirect "/dash" "sess1" (some 77) ∧
    (∃ d2 s2,
      (some ⟨"kody", "pw", some "/dash", true⟩ :
          Option LoginV2.LoginData) = some d2 ∧
      (some ⟨"sess1", "uid1", 77⟩ : Option LoginV2.Session) = some s2 ∧
      "submit" = "submit" ∧
      "/dash" = (fun o : Option String => o.getD "/") d2.redirectTo ∧
      "sess1" = s2.id ∧
      (some 77 : Option Nat) =
        if d2.remember then some s2.expirationDate else none) := by
  have h := C10_remember_controls_cookie_expiry [("username", "kody")]
    ⟨"kody", "pw", some "/dash", true⟩ ⟨"sess1", "uid1", 77⟩ "bad"
    (fun o => o.getD "/")
  exact ⟨h.1, h.2 "submit" (some ⟨"kody", "pw", some "/dash", true⟩)
    (some ⟨"sess1", "uid1", 77⟩) "/dash" "sess1" (some 77) (by decide)⟩
